import Mathlib

/-!
# Verification of the indicator-dashboard data layer

Shallow embedding of the data-handling core of the `indicator-dashboard`
repository (`dashboard/utils/data_loader.py`, `dashboard/utils/data_processor.py`,
`dashboard/components/charts.py`), together with theorems settling the claims
about it.

Modelling conventions:
* pandas timestamps are modelled at day precision by `Ymd` (year, month, day);
  comparisons go through `Ymd.key`, which agrees with lexicographic
  (year, month, day) order on calendar dates (month < 16, day < 32).
* float arithmetic is modelled by exact rationals `ℚ`.  `NaN` cells are
  modelled by `Option ℚ`.  Division by zero (which produces `inf`/`NaN` in
  pandas) is outside the modelled regime; theorems that depend on divisions
  carry positivity hypotheses delimiting that regime.
* `np.random.normal` draws are inputs: each generator takes the list of
  realized draws as an explicit argument (`noise`/`pert`).  The seasonal
  `0.2*sin(2*pi*month/12)` term of `generate_sample_data` is irrational and
  uninspected by every claim; it is folded into the same per-month
  perturbation input as the draw it is always added to.
* the filesystem is abstracted as the list of candidate files the loader
  probes, in probe order: each candidate is `(path mentions "sample",
  parsed table or none)`, where `none` stands for a missing or unreadable
  file.  The `cruspi` direct-file special case of `load_indicator_data` is
  the same per-file pipeline applied to one extra leading candidate.
-/

namespace IndicatorDashboard

/-- Calendar date at day precision, modelling a pandas timestamp. -/
structure Ymd where
  y : Nat
  m : Nat
  d : Nat
deriving DecidableEq, Repr

/-- Order key: agrees with lexicographic (y, m, d) order whenever m < 16 and
d < 32, which holds for calendar dates. -/
def Ymd.key (a : Ymd) : Nat := (a.y * 16 + a.m) * 32 + a.d

/-- Days in a month, with the Gregorian leap rule (used by the day-clamping of
`pd.DateOffset` subtraction). -/
def daysInMonth (y m : Nat) : Nat :=
  if m = 2 then (if (y % 4 = 0 ∧ y % 100 ≠ 0) ∨ y % 400 = 0 then 29 else 28)
  else if m = 4 ∨ m = 6 ∨ m = 9 ∨ m = 11 then 30 else 31

/-- `a - pd.DateOffset(months := n)`: step back `n` months, clamping the day to
the target month's length (pandas clamps, e.g. Mar 31 - 1 month = Feb 28). -/
def subMonths (n : Nat) (a : Ymd) : Ymd :=
  let t := a.y * 12 + (a.m - 1) - n
  { y := t / 12, m := t % 12 + 1, d := min a.d (daysInMonth (t / 12) (t % 12 + 1)) }

/-- First day of the month with absolute month index `t` (year `t / 12`,
month `t % 12 + 1`). -/
def ofMonthIndex (t : Nat) : Ymd := { y := t / 12, m := t % 12 + 1, d := 1 }

/-- A data row of an indicator table: `(Date, value)` plus the two metadata
cells the claims inspect. -/
structure Row where
  date : Ymd
  value : ℚ
  prefDir : String
  sourceSample : Bool
deriving DecidableEq, Repr

/-! ## `data_processor.filter_time_period` -/

/-- Maximum date of a list of dated rows (`df['Date'].max()`), by `Ymd.key`. -/
def dmaxRows (rows : List (Ymd × ℚ)) : Ymd :=
  match rows with
  | [] => ⟨0, 0, 0⟩
  | r :: rs => rs.foldl (fun a b => if a.key < b.1.key then b.1 else a) r.1

/-- Minimum date of a list of dated rows (`df['Date'].min()`), by `Ymd.key`. -/
def dminRows (rows : List (Ymd × ℚ)) : Ymd :=
  match rows with
  | [] => ⟨0, 0, 0⟩
  | r :: rs => rs.foldl (fun a b => if b.1.key < a.key then b.1 else a) r.1

/-- `data_processor.filter_time_period` (lines 13-53): window the rows to the
selected period, anchored at the data's own maximum date; if the latest row
got filtered out, concatenate it back and drop duplicates. -/
def filter_time_period (rows : List (Ymd × ℚ)) (timePeriod : String) : List (Ymd × ℚ) :=
  if rows.isEmpty then rows
  else
    let endD := dmaxRows rows
    let startD :=
      if timePeriod = "Last 6 Months" then subMonths 6 endD
      else if timePeriod = "Last 12 Months" then subMonths 12 endD
      else if timePeriod = "Last 24 Months" then subMonths 24 endD
      else dminRows rows
    let result := rows.filter (fun r => startD.key ≤ r.1.key && r.1.key ≤ endD.key)
    if !result.isEmpty then
      if (dmaxRows result) ≠ endD then
        (result ++ rows.filter (fun r => r.1 = endD)).dedup
      else result
    else result

/-! ## `data_processor.get_impact_indicator` (identical copy in
`components/indicator_card.py`, lines 329-375) -/

/-- The effective preferred direction after the indicator-specific overrides
(`data_processor.py` lines 124-135).  `if indicator_id:` is Python truthiness,
so `None` and the empty string leave the direction unchanged. -/
def effectiveDirection (preferredDirection : String) (indicatorId : Option String) : String :=
  match indicatorId with
  | none => preferredDirection
  | some i =>
    if i = "" then preferredDirection
    else if i = "wti_oil" ∨ i = "ppi_steel_scrap" then "down"
    else if i = "dollar_index" then "down"
    else if i = "baltic_dry_index" then "down"
    else preferredDirection

/-- `data_processor.get_impact_indicator` (lines 109-155).  `change = none`
models a NaN change.  Returns (arrow, style class, impact). -/
def get_impact_indicator (change : Option ℚ) (preferredDirection : String)
    (useAbsolute : Bool) (indicatorId : Option String) : String × String × String :=
  match change with
  | none => ("", "neutral-impact", "neutral")
  | some c =>
    let significanceThreshold : ℚ := if useAbsolute then 1/10 else 2
    let isSignificant := significanceThreshold < |c|
    let dir := effectiveDirection preferredDirection indicatorId
    if dir = "down" then
      let impact := if c < 0 then "positive" else (if isSignificant then "negative" else "neutral")
      ((if c < 0 then "↓" else "↑"), impact ++ "-impact", impact)
    else if dir = "up" then
      let impact := if 0 < c then "positive" else (if isSignificant then "negative" else "neutral")
      ((if 0 < c then "↑" else "↓"), impact ++ "-impact", impact)
    else
      let impact := if isSignificant then (if 0 < c then "negative" else "positive") else "neutral"
      ((if 0 < c then "↑" else "↓"), impact ++ "-impact", impact)

/-! ## Trend classification -/

/-- `Series.pct_change()` with the leading NaN dropped: consecutive fractional
changes `v[i]/v[i-1] - 1`. -/
def pctChanges (vs : List ℚ) : List ℚ :=
  List.zipWith (fun p c => c / p - 1) vs vs.tail

/-- `Series.mean()` of a NaN-free series. -/
def listMean (vs : List ℚ) : ℚ := vs.sum / vs.length

/-- `Series.tail(k)`: the last `k` elements. -/
def tailK (k : Nat) (vs : List ℚ) : List ℚ := vs.drop (vs.length - k)

/-- `data_loader.determine_trend` (lines 643-676).  `vals` is the `value`
column of the historical frame (`[]` models an empty frame or a missing
`value` column); `fvals` models the forecast frame: `none` when absent,
`some l` its `value` column otherwise (an empty `l` behaves as absent, line
656's `not forecast_df.empty`). -/
def determine_trend (vals : List ℚ) (fvals : Option (List ℚ)) : String × String × String :=
  if vals.isEmpty then
    ("→ Stable", "trend-stable", "Trend cannot be determined due to insufficient data.")
  else if 2 ≤ vals.length then
    let recent := tailK (min 6 vals.length) vals
    let fv := fvals.bind (fun l => if l.isEmpty then none else some l)
    let recentTrend := listMean (pctChanges recent) * 100
    let forecastTrend : ℚ :=
      match fv with
      | some l => if 2 ≤ l.length then ((l.getLast?.getD 0) - (l.headD 0)) / (l.headD 0) * 100 else 0
      | none => 0
    let combined : ℚ :=
      match fv with
      | some _ => (recentTrend + forecastTrend) / 2
      | none => recentTrend
    if 7/10 < combined then ("↑ Increasing", "trend-up", "Prices have been trending upward.")
    else if combined < -(7/10) then ("↓ Decreasing", "trend-down", "Prices have been trending downward.")
    else ("→ Stable", "trend-stable", "Prices have been relatively stable.")
  else ("→ Stable", "trend-stable", "Prices have been relatively stable.")

/-- `data_processor.get_trend_indicator` (lines 157-183): same classification
over a caller-supplied window (`last_values`) and forecast values. -/
def get_trend_indicator (lastValues : Option (List ℚ)) (forecastValues : Option (List ℚ)) :
    String × String :=
  match lastValues with
  | none => ("→ Stable", "trend-stable")
  | some vs =>
    if vs.length < 2 then ("→ Stable", "trend-stable")
    else
      let recentTrend := listMean (pctChanges vs) * 100
      let forecastTrend : ℚ :=
        match forecastValues with
        | some l => if 2 ≤ l.length then ((l.getLast?.getD 0) - (l.headD 0)) / (l.headD 0) * 100 else 0
        | none => 0
      let combined : ℚ :=
        match forecastValues with
        | some _ => (recentTrend + forecastTrend) / 2
        | none => recentTrend
      if 7/10 < combined then ("↑ Increasing", "trend-up")
      else if combined < -(7/10) then ("↓ Decreasing", "trend-down")
      else ("→ Stable", "trend-stable")

/-! ## `data_loader`: default metadata tables -/

/-- The `directions` dict of `data_loader.get_default_preferred_direction`
(lines 745-766). -/
def preferredDirections : List (String × String) :=
  [("supply_chain", "down"), ("pmi_input_us", "down"), ("ppi_steel_scrap", "down"),
   ("wti_oil", "down"), ("ism_supplier_deliveries", "down"), ("empire_prices_paid", "down"),
   ("cruspi", "neutral"), ("cruspi_long", "neutral"), ("baltic_dry_index", "neutral"),
   ("dollar_index", "neutral"), ("komatsu_equipment", "down"), ("sms_equipment", "down"),
   ("caterpillar_equipment", "down"), ("fabricated_steel", "down"),
   ("cement_ready_mix", "down"), ("explosives", "down")]

/-- `data_loader.get_default_preferred_direction`: dict lookup with default
`'neutral'`. -/
def get_default_preferred_direction (indicatorId : String) : String :=
  (preferredDirections.lookup indicatorId).getD "neutral"

/-- Substring test on char lists (for Python's `'pat' in s`). -/
def listLeads : List Char → List Char → Bool
  | [], _ => true
  | _ :: _, [] => false
  | a :: as, b :: bs => a == b && listLeads as bs

/-- `hasSubstr pat s`: `pat` occurs contiguously in `s`. -/
def hasSubstr (pat : List Char) : List Char → Bool
  | [] => pat.isEmpty
  | c :: rest => listLeads pat (c :: rest) || hasSubstr pat rest

/-- Python's `pat in s` on strings. -/
def strContains (s pat : String) : Bool := hasSubstr pat.toList s.toList

/-! ## `data_loader.load_indicator_data`: per-file pipeline -/

/-- The facets of a parsed CSV (`pd.read_csv` result) that
`load_indicator_data` inspects.  Column-inference heuristics are modelled by
their outcome: `dates`/`values` are the `Date`/`value` columns when present,
`dateLike`/`valueLike` the first date-named (resp. numeric non-date-named)
column that lines 255-270 would fall back to.  `dateParseOk = false` models a
`pd.to_datetime` failure (caught at line 310, moving to the next candidate).
All column lists have length `nRows` in a well-formed table. -/
structure Tbl where
  nRows : Nat
  dates : Option (List Ymd)
  dateLike : Option (List Ymd)
  values : Option (List ℚ)
  valueLike : Option (List ℚ)
  prefDirCol : Option (List String)
  sourceSampleCol : Option (List Bool)
  hasMonthly : Bool
  hasYoy : Bool
  hasLastUpdated : Bool
  dateParseOk : Bool
deriving DecidableEq, Repr

/-- Zip the four per-row columns into rows. -/
def mkRows (ds : List Ymd) (vs : List ℚ) (pd : List String) (sf : List Bool) : List Row :=
  ((ds.zip vs).zip (pd.zip sf)).map
    (fun p => { date := p.1.1, value := p.1.2, prefDir := p.2.1, sourceSample := p.2.2 })

/-- `df['Date'].max()` as a key (0 when empty). -/
def dmaxKeyOf (ds : List Ymd) : Nat := (ds.map Ymd.key).foldl max 0

/-- `pct_change(k) * 100` as a column with NaNs (`none`) in the first `k`
slots: element `i` is `(v[i]/v[i-k] - 1) * 100` for `i ≥ k`. -/
def pctChangeCol (k : Nat) (vs : List ℚ) : List (Option ℚ) :=
  List.zipWith (fun cur prev => prev.map (fun p => (cur / p - 1) * 100))
    vs (List.replicate k none ++ vs.map some)

/-- The table a successful `load_indicator_data` run returns: the (possibly
future-filtered) rows and the derived-metric columns.  Presentation-only
columns (`source` name, `unit`, `description`, `last_updated_date`) are not
carried. -/
structure LoadResult where
  rows : List Row
  monthly : Option (List (Option ℚ))
  yoy : Option (List (Option ℚ))
  usingSample : Bool
deriving DecidableEq, Repr

/-- The body of `load_indicator_data`'s per-candidate `try` block (lines
241-311), from `pd.read_csv` success to `return`; `none` means `continue`
(empty file, unresolvable columns, or a raised exception).

Notes kept faithful to the source:
* empty-frame check first (line 248);
* `Date`/`value` resolution via the fallback columns (lines 252-274);
* `pd.to_datetime` (line 277) may raise, caught at line 310;
* future dates filtered out only when `max > now` (lines 280-283);
* `monthly_change`/`yoy_change` added only when absent, from the filtered
  series (lines 286-289);
* when every row is future-dated and the table has no `last_updated_date`
  column, line 299 evaluates `NaT.strftime`, which raises, so the candidate
  is skipped; with such a column present the empty frame is returned;
* `using_sample_data` from the path and the (filtered) `source` cells
  (lines 302-305). -/
def processFile (now : Ymd) (indicatorId : String) (pathSample : Bool) (t : Tbl) :
    Option LoadResult :=
  if t.nRows = 0 then none
  else
    match t.dates.orElse (fun _ => t.dateLike), t.values.orElse (fun _ => t.valueLike) with
    | some ds, some vs =>
      if !t.dateParseOk then none
      else
        let pdirs := t.prefDirCol.getD
          (List.replicate t.nRows (get_default_preferred_direction indicatorId))
        let sflags := t.sourceSampleCol.getD (List.replicate t.nRows false)
        let rows0 := mkRows ds vs pdirs sflags
        let rows := if now.key < dmaxKeyOf ds
          then rows0.filter (fun r => r.date.key ≤ now.key) else rows0
        if rows.isEmpty && !t.hasLastUpdated then none
        else
          some {
            rows := rows
            monthly := if t.hasMonthly then none
              else if 1 < rows.length then some (pctChangeCol 1 (rows.map Row.value)) else none
            yoy := if t.hasYoy then none
              else if 12 ≤ rows.length then some (pctChangeCol 12 (rows.map Row.value)) else none
            usingSample := pathSample || rows.any Row.sourceSample }
    | _, _ => none

/-! ## `data_loader.generate_sample_data` -/

/-- `(base_value, trend)` per indicator type (lines 804-832).  `volatility`
only scales the realized normal draw and is absorbed into the perturbation
input. -/
def sampleParams (indicatorId : String) : ℚ × ℚ :=
  if strContains indicatorId "equipment" then (180, 3/10)
  else if strContains indicatorId "steel" then (200, 2/5)
  else if strContains indicatorId "cement" then (220, 1/4)
  else if strContains indicatorId "explosives" then (175, 7/20)
  else if indicatorId = "wti_oil" then (75, 1/5)
  else if indicatorId = "supply_chain" then (1/2, -1/10)
  else (100, 1/2)

/-- `n` chained values after `v`: element `j` is obtained from its predecessor
by `step (i+j)`. -/
def chainValues (step : Nat → ℚ → ℚ) : ℚ → Nat → Nat → List ℚ
  | _, _, 0 => []
  | v, i, k + 1 => step i v :: chainValues step (step i v) (i + 1) k

/-- `data_loader.generate_sample_data` (lines 792-882): 25 month-start rows
from two years back through the current month (`pd.date_range` of `'MS'`
dates from `datetime(Y-2, M, 1)` to now), first value `base`, each later
value `prev * (1 + trend/100 + pert[i])` where `pert[i]` stands for the
seasonal term plus the realized draw; `source` is the default name plus
`" (Sample Data)"`, hence every row's source mentions sample. -/
def generate_sample_data (indicatorId : String) (nowY nowM : Nat) (pert : List ℚ) :
    LoadResult :=
  let p := sampleParams indicatorId
  let startIdx := (nowY - 2) * 12 + (nowM - 1)
  let dates := (List.range 25).map (fun i => ofMonthIndex (startIdx + i))
  let vals := p.1 :: chainValues (fun i v => v * (1 + p.2 / 100 + pert.getD i 0)) p.1 1 24
  { rows := mkRows dates vals
      (List.replicate 25 (get_default_preferred_direction indicatorId))
      (List.replicate 25 true)
    monthly := some (pctChangeCol 1 vals)
    yoy := some (pctChangeCol 12 vals)
    usingSample := true }

/-- The candidate loop of `load_indicator_data` (lines 241-311): first
candidate whose `try` block reaches `return`. -/
def firstUsable (now : Ymd) (indicatorId : String) :
    List (Bool × Option Tbl) → Option LoadResult
  | [] => none
  | c :: rest =>
    match c.2 with
    | none => firstUsable now indicatorId rest
    | some t =>
      match processFile now indicatorId c.1 t with
      | some r => some r
      | none => firstUsable now indicatorId rest

/-- `data_loader.load_indicator_data` (lines 148-318) over the abstracted
filesystem: try each candidate file in order, otherwise fall back to
`generate_sample_data` with `using_sample_data = True`.  The second component
is the returned `using_sample_data` flag. -/
def load_indicator_data (now : Ymd) (indicatorId : String)
    (candidates : List (Bool × Option Tbl)) (pert : List ℚ) : LoadResult × Bool :=
  match firstUsable now indicatorId candidates with
  | some r => (r, r.usingSample)
  | none => (generate_sample_data indicatorId now.y now.m pert, true)

/-! ## Forecast generators -/

/-- `pd.date_range(start=current_month_start, periods=k, freq='MS')`:
`k` consecutive month starts from month (`y`, `m`). -/
def dateRangeMS (y m : Nat) (k : Nat) : List Ymd :=
  (List.range k).map (fun i => ofMonthIndex (y * 12 + (m - 1) + i))

/-- Base value per indicator type in `generate_sample_forecast`
(lines 893-907). -/
def sfBase (indicatorId : String) : ℚ :=
  if strContains indicatorId "equipment" then 180
  else if strContains indicatorId "steel" then 200
  else if strContains indicatorId "cement" then 220
  else if strContains indicatorId "explosives" then 175
  else if indicatorId = "wti_oil" then 75
  else if indicatorId = "supply_chain" then 1/2
  else 100

/-- A generated forecast row: `(Date, value, lower_ci, upper_ci)`. -/
abbrev ForecastRow := Ymd × ℚ × ℚ × ℚ

/-- `data_loader.generate_sample_forecast` (lines 884-942): 6 month-start
dates from the current month; `values[0] = base * (1 + noise[0])`,
`values[i] = values[i-1] * (1 + 0.002 + noise[i])` (each `noise[i]` the
realized `np.random.normal` draw); confidence bounds
`value * (1 ∓ (0.005 + 0.003*i))`. -/
def generate_sample_forecast (indicatorId : String) (nowY nowM : Nat) (noise : List ℚ) :
    List ForecastRow :=
  let dates := dateRangeMS nowY nowM 6
  let v0 := sfBase indicatorId * (1 + noise.getD 0 0)
  let vals := v0 :: chainValues (fun i v => v * (1 + 1/500 + noise.getD i 0)) v0 1 5
  (List.range 6).map (fun i =>
    let v := vals.getD i 0
    (dates.getD i ⟨0, 0, 0⟩, v,
      v * (1 - (1/200 + (3/1000) * (i : ℚ))),
      v * (1 + (1/200 + (3/1000) * (i : ℚ)))))

/-- Clamp of the average monthly change to `[-0.05, 0.05]` (lines 490-493). -/
def clampTrend (x : ℚ) : ℚ := if 1/20 < x then 1/20 else if x < -(1/20) then -(1/20) else x

/-- `data_loader.generate_sample_forecast_from_actual` (lines 470-529):
project 6 values from the last actual value at the (clamped) average recent
monthly change, with bounds `value * (1 ∓ (0.005 + 0.005*i))`; falls back to
`generate_sample_forecast` when fewer than 2 recent values exist.
`actualVals` is the `value` column of the actual frame (`[]` models an empty
frame or missing column). -/
def generate_sample_forecast_from_actual (indicatorId : String) (nowY nowM : Nat)
    (actualVals : List ℚ) (noise : List ℚ) : List ForecastRow :=
  if actualVals.isEmpty then generate_sample_forecast indicatorId nowY nowM noise
  else
    let lastValue := actualVals.getLast?.getD 0
    let recent := tailK (min 6 actualVals.length) actualVals
    if recent.length ≤ 1 then generate_sample_forecast indicatorId nowY nowM noise
    else
      let changes := pctChanges recent
      let avg0 : ℚ := if changes.isEmpty then 1/200 else listMean changes
      let avg := clampTrend avg0
      let v0 := lastValue * (1 + avg + noise.getD 0 0)
      let vals := v0 :: chainValues (fun i v => v * (1 + avg + noise.getD i 0)) v0 1 5
      let dates := dateRangeMS nowY nowM 6
      (List.range 6).map (fun i =>
        let v := vals.getD i 0
        (dates.getD i ⟨0, 0, 0⟩, v,
          v * (1 - (1/200 + (1/200) * (i : ℚ))),
          v * (1 + (1/200 + (1/200) * (i : ℚ)))))

/-! ## `charts.create_indicator_chart` -/

/-- The traces `create_indicator_chart` draws that the claims inspect:
forecast line and confidence-interval polygon (empty when not drawn). -/
structure Chart where
  forecastX : List Ymd
  forecastY : List ℚ
  ciX : List Ymd
  ciY : List ℚ
deriving DecidableEq, Repr

/-- The first-forecast-point blend (lines 64-72): replace the first forecast
value by `last_hist * 0.7 + first_forecast * 0.3`. -/
def blendAdjust (lastHistValue : ℚ) (fvals : List ℚ) : List ℚ :=
  match fvals with
  | [] => []
  | v :: rest => (lastHistValue * (7/10) + v * (3/10)) :: rest

/-- The confidence-interval adjustment at the first forecast point (lines
75-83): re-centre on the blended value, at `± 0.3 *` the original range. -/
def blendAdjustCI (lastHistValue : ℚ) (fvals ls us : List ℚ) : List ℚ × List ℚ :=
  match fvals, ls, us with
  | v :: _, l :: lrest, u :: urest =>
    let adjusted := lastHistValue * (7/10) + v * (3/10)
    let ciRange := u - l
    ((adjusted - ciRange * (3/10)) :: lrest, (adjusted + ciRange * (3/10)) :: urest)
  | _, _, _ => (ls, us)

/-- `charts.create_indicator_chart` (lines 21-175), reduced to the data of
its traces.  `none` when the historical frame is unusable (line 23).  The
forecast branch (line 58) requires `show_forecast` and a non-empty forecast
with `Date` and `value` columns — an absent/unusable forecast is modelled by
empty `fDates`/`fVals`.  The forecast trace is prepended with the last
historical point (lines 88-89), the CI polygon walks the upper bounds then
the lower bounds reversed (lines 105-110). -/
def create_indicator_chart (histDates : List Ymd) (histVals : List ℚ)
    (showForecast : Bool) (fDates : List Ymd) (fVals : List ℚ)
    (ci : Option (List ℚ × List ℚ)) : Option Chart :=
  if histDates.isEmpty || histVals.isEmpty then none
  else
    let lastHistDate := histDates.getLast?.getD ⟨0, 0, 0⟩
    let lastHistValue := histVals.getLast?.getD 0
    if showForecast && !fVals.isEmpty then
      let adjVals := blendAdjust lastHistValue fVals
      let forecastDates := lastHistDate :: fDates
      let forecastValues := lastHistValue :: adjVals
      match ci with
      | some p =>
        let adj := blendAdjustCI lastHistValue fVals p.1 p.2
        let lowerCi := lastHistValue :: adj.1
        let upperCi := lastHistValue :: adj.2
        some { forecastX := forecastDates, forecastY := forecastValues,
               ciX := forecastDates ++ forecastDates.reverse,
               ciY := upperCi ++ lowerCi.reverse }
      | none =>
        some { forecastX := forecastDates, forecastY := forecastValues, ciX := [], ciY := [] }
    else
      some { forecastX := [], forecastY := [], ciX := [], ciY := [] }

/-! ## `data_loader.create_correlation_matrix` -/

/-- `Date.strftime('%Y-%m')` as an order-preserving month key. -/
def ymKey (a : Ymd) : Nat := a.y * 12 + (a.m - 1)

/-- `groupby('YearMonth').last()` value for one group: the value of the last
row of the group, in row order (cells are NaN-free). -/
def lastInMonth (rows : List (Nat × ℚ)) (k : Nat) : ℚ :=
  rows.foldl (fun acc r => if r.1 = k then r.2 else acc) 0

/-- The group keys, ascending (pandas `groupby` sorts its keys; `'%Y-%m'`
string order is month order). -/
def monthKeysSorted (rows : List (Nat × ℚ)) : List Nat :=
  ((rows.map Prod.fst).dedup).mergeSort (fun a b => decide (a ≤ b))

/-- The monthly pivot of one indicator (lines 687-689): one value per
year-month, by `groupby('YearMonth').last()`. -/
def pivotMonthly (rows : List (Nat × ℚ)) : List (Nat × ℚ) :=
  (monthKeysSorted rows).map (fun k => (k, lastInMonth rows k))

/-- Month-keyed series of a dated series. -/
def toMonthKeyed (rows : List (Ymd × ℚ)) : List (Nat × ℚ) :=
  rows.map (fun r => (ymKey r.1, r.2))

/-- The usable indicator series (line 686: non-empty with `Date` and `value`
columns; a missing column is modelled by `none`). -/
def usableSeries (indicators : List (String × Option (List (Ymd × ℚ)))) :
    List (String × List (Nat × ℚ)) :=
  indicators.filterMap (fun c =>
    c.2.bind (fun rows => if rows.isEmpty then none else some (c.1, toMonthKeyed rows)))

/-- The common monthly index produced by the chain of outer merges on
`YearMonth` (lines 694-699): the union of the pivots' keys, ascending. -/
def unionMonths (cols : List (String × List (Nat × ℚ))) : List Nat :=
  ((cols.foldl (fun acc c => acc ++ c.2.map Prod.fst) []).dedup).mergeSort
    (fun a b => decide (a ≤ b))

/-- The rows of the common index at which both columns are non-NaN — the
sample `DataFrame.corr` computes each pairwise Pearson coefficient from. -/
def alignedPairs (months : List Nat) (a b : List (Nat × ℚ)) : List (ℚ × ℚ) :=
  months.filterMap (fun k =>
    match a.lookup k, b.lookup k with
    | some x, some y => some (x, y)
    | _, _ => none)

/-- The sufficient statistics of a Pearson coefficient over paired samples:
`(n·Σxy − Σx·Σy, n·Σx² − (Σx)², n·Σy² − (Σy)²)`; the coefficient is
`S_xy / sqrt(S_xx · S_yy)`, an (irrational-valued) function of exactly this
triple, left symbolic to stay within exact arithmetic. -/
def corrStats (ps : List (ℚ × ℚ)) : ℚ × ℚ × ℚ :=
  let n : ℚ := ps.length
  let sx := (ps.map Prod.fst).sum
  let sy := (ps.map Prod.snd).sum
  let sxy := (ps.map (fun p => p.1 * p.2)).sum
  let sxx := (ps.map (fun p => p.1 * p.1)).sum
  let syy := (ps.map (fun p => p.2 * p.2)).sum
  (n * sxy - sx * sy, n * sxx - sx * sx, n * syy - sy * sy)

/-- `data_loader.create_correlation_matrix` (lines 678-705): `none` (the
empty frame) when fewer than 2 indicators or fewer than 2 usable series;
otherwise every ordered pair of usable indicators with the Pearson data of
their monthly-pivoted, outer-merged columns. -/
def create_correlation_matrix (indicators : List (String × Option (List (Ymd × ℚ)))) :
    Option (List ((String × String) × (ℚ × ℚ × ℚ))) :=
  if indicators.length < 2 then none
  else
    let cols := (usableSeries indicators).map (fun c => (c.1, pivotMonthly c.2))
    if cols.length < 2 then none
    else
      let months := unionMonths cols
      some (cols.flatMap (fun a => cols.map (fun b =>
        ((a.1, b.1), corrStats (alignedPairs months a.2 b.2)))))

/-! ## Claim-side definitions

These restate parts of the spec/claims in the claims' own words, to be
compared against the source-translated definitions above. -/

/-- The claims' indexwise percentage-change column: entry `i` is
`(value[i]/value[i-k] - 1) * 100` for `i ≥ k`, NaN before that. -/
def specPctCol (k : Nat) (vs : List ℚ) : List (Option ℚ) :=
  (List.range vs.length).map (fun i =>
    if i < k then none else some ((vs.getD i 0 / vs.getD (i - k) 0 - 1) * 100))

/-- The claim's recent trend: the mean percentage change of the last
`min(6, len)` values, written as an indexwise sum. -/
def specRecentTrend (vals : List ℚ) : ℚ :=
  let k := min 6 vals.length
  let i0 := vals.length - k
  (((List.range (k - 1)).map
      (fun j => vals.getD (i0 + j + 1) 0 / vals.getD (i0 + j) 0 - 1)).sum / ((k : ℚ) - 1)) * 100

/-- The claim's forecast trend: `(last - first)/first * 100` when at least two
forecast values exist, else 0. -/
def specForecastTrend (fvals : List ℚ) : ℚ :=
  if 2 ≤ fvals.length then ((fvals.getLast?.getD 0) - (fvals.headD 0)) / (fvals.headD 0) * 100
  else 0

/-- The claim's combined trend: the average of recent and forecast trend when
a (non-empty) forecast is present, else the recent trend alone. -/
def specCombinedTrend (vals : List ℚ) (fvals : Option (List ℚ)) : ℚ :=
  match fvals.bind (fun l => if l.isEmpty then none else some l) with
  | some l => (specRecentTrend vals + specForecastTrend l) / 2
  | none => specRecentTrend vals

/-- The claim's pivot cell: the last observation of the given month, read
from the end of the series. -/
def specLastObs (rows : List (Nat × ℚ)) (k : Nat) : Option ℚ :=
  (rows.reverse.find? (fun r => r.1 = k)).map Prod.snd

/-- The claim's monthly pivot: one value per year-month, the last observation
of that month. -/
def specPivot (rows : List (Nat × ℚ)) : List (Nat × ℚ) :=
  (monthKeysSorted rows).filterMap (fun k => (specLastObs rows k).map (fun v => (k, v)))

/-- The claim's correlation matrix: as `create_correlation_matrix`, but with
the pivot read off per the claim's words (`specPivot`). -/
def spec_correlation_matrix (indicators : List (String × Option (List (Ymd × ℚ)))) :
    Option (List ((String × String) × (ℚ × ℚ × ℚ))) :=
  if indicators.length < 2 then none
  else
    let cols := (usableSeries indicators).map (fun c => (c.1, specPivot c.2))
    if cols.length < 2 then none
    else
      let months := unionMonths cols
      some (cols.flatMap (fun a => cols.map (fun b =>
        ((a.1, b.1), corrStats (alignedPairs months a.2 b.2)))))

/-! ## Concrete inputs for witnesses and counterexamples -/

/-- A fixed "today" for concrete evaluations: 2025-06-15. -/
def nowW : Ymd := ⟨2025, 6, 15⟩

/-- A well-formed 13-row table (dates 2024-01 … 2025-01, values 1 … 13)
without derived-metric columns. -/
def tblW : Tbl :=
  { nRows := 13
    dates := some ((List.range 13).map (fun i => ofMonthIndex (2024 * 12 + i)))
    dateLike := none
    values := some [1, 2, 3, 4, 5, 6, 7, 8, 9, 10, 11, 12, 13]
    valueLike := none
    prefDirCol := none
    sourceSampleCol := none
    hasMonthly := false
    hasYoy := false
    hasLastUpdated := false
    dateParseOk := true }

/-- A parseable table whose single row is future-dated (2030-01-01) and which
already has a `last_updated_date` column. -/
def tblFuture : Tbl :=
  { nRows := 1
    dates := some [⟨2030, 1, 1⟩]
    dateLike := none
    values := some [5]
    valueLike := none
    prefDirCol := none
    sourceSampleCol := some [false]
    hasMonthly := false
    hasYoy := false
    hasLastUpdated := true
    dateParseOk := true }

/-- A usable table carrying its own `preferred_direction` column with a value
outside `{up, down, neutral}`. -/
def tblSideways : Tbl :=
  { nRows := 1
    dates := some [⟨2025, 1, 1⟩]
    dateLike := none
    values := some [5]
    valueLike := none
    prefDirCol := some ["sideways"]
    sourceSampleCol := some [false]
    hasMonthly := false
    hasYoy := false
    hasLastUpdated := true
    dateParseOk := true }

/-- The `value` column of an optional load result (empty when the load did
not succeed). -/
def loadedValues (o : Option LoadResult) : List ℚ :=
  (o.map (fun r => r.rows.map Row.value)).getD []

/-- The `monthly_change` column of an optional load result. -/
def loadedMonthly (o : Option LoadResult) : Option (List (Option ℚ)) :=
  (o.map LoadResult.monthly).getD none

/-- The `yoy_change` column of an optional load result. -/
def loadedYoy (o : Option LoadResult) : Option (List (Option ℚ)) :=
  (o.map LoadResult.yoy).getD none

/-- A default forecast row used with `List.getD`. -/
def frDefault : ForecastRow := (⟨0, 0, 0⟩, 0, 0, 0)

/-- A default row used with `List.headD`. -/
def rowDefault : Row := { date := ⟨0, 0, 0⟩, value := 0, prefDir := "", sourceSample := false }

/-! # Theorems -/

/-! ## C5: impact classification -/

/-- C5, counterexample: the claim says `get_impact_indicator` assigns a
non-neutral impact only when `|change|` exceeds the significance threshold
(2.0 here).  At `change = -1`, `preferred_direction = 'down'`,
`use_absolute = False`, the code returns impact `'positive'` although
`|-1| = 1 ≤ 2`: any change in the preferred direction is non-neutral
regardless of magnitude. -/
theorem impact_small_favorable_change_nonneutral :
    (get_impact_indicator (some (-1)) "down" false none).2.2 = "positive"
      ∧ |(-1 : ℚ)| ≤ 2 := by
  constructor
  · decide
  · norm_num

/-- C5, amended: only the `'negative'` impact is significance-thresholded in
general — it requires `|change|` above the threshold (2.0, or 0.1 with
`use_absolute`); when the effective preferred direction (after the
indicator-specific overrides) is neither `'down'` nor `'up'`, every
non-neutral impact requires `|change|` above the threshold; but a change
strictly in the preferred direction is classified `'positive'` regardless of
magnitude. -/
theorem impact_significance_amended (c : ℚ) (pd : String) (ua : Bool) (iid : Option String) :
    ((get_impact_indicator (some c) pd ua iid).2.2 = "negative" →
      (if ua then (1 : ℚ)/10 else 2) < |c|)
    ∧ (effectiveDirection pd iid = "down" → c < 0 →
        (get_impact_indicator (some c) pd ua iid).2.2 = "positive")
    ∧ (effectiveDirection pd iid = "up" → 0 < c →
        (get_impact_indicator (some c) pd ua iid).2.2 = "positive")
    ∧ (effectiveDirection pd iid ≠ "down" → effectiveDirection pd iid ≠ "up" →
        (get_impact_indicator (some c) pd ua iid).2.2 ≠ "neutral" →
        (if ua then (1 : ℚ)/10 else 2) < |c|) := by
  set thr : ℚ := if ua then (1 : ℚ)/10 else 2 with hthr
  set impact := (get_impact_indicator (some c) pd ua iid).2.2 with himp
  rw [get_impact_indicator] at himp
  by_cases hdn : effectiveDirection pd iid = "down" <;>
    by_cases hup : effectiveDirection pd iid = "up" <;>
      simp only [hdn, hup, if_pos, if_neg, reduceIte] at himp
  · exact absurd (hup ▸ hdn) (by decide)
  · refine ⟨?_, ?_, ?_, ?_⟩
    · intro hneg
      rw [himp] at hneg
      split_ifs at hneg with h1 h2 <;> simp_all [hthr]
    · intro _ hc
      rw [himp]
      simp [hc]
    · intro hu
      exact absurd hu hup
    · intro hd
      exact absurd hdn hd
  · refine ⟨?_, ?_, ?_, ?_⟩
    · intro hneg
      rw [himp] at hneg
      split_ifs at hneg with h1 h2 <;> simp_all [hthr]
    · intro hd
      exact absurd hd hdn
    · intro _ hc
      rw [himp]
      simp [hc, not_lt.mpr (le_of_lt hc)]
    · intro _ hu
      exact absurd hup hu
  · refine ⟨?_, ?_, ?_, ?_⟩
    · intro hneg
      rw [himp] at hneg
      split_ifs at hneg with h1 h2 <;> simp_all [hthr]
    · intro hd
      exact absurd hd hdn
    · intro hu
      exact absurd hu hup
    · intro _ _ hne
      rw [himp] at hne
      split_ifs at hne with h1 h2 <;> simp_all [hthr]

/-- Witness for `impact_significance_amended` at `change = 5`,
`preferred_direction = 'neutral'`: the `'negative'` impact implies the
threshold is exceeded. -/
theorem impact_significance_amended_witness : (2 : ℚ) < |(5 : ℚ)| :=
  (impact_significance_amended 5 "neutral" false none).1 (by decide)

/-! ## C2: forecast-seam blend in `create_indicator_chart` -/

/-- C2: when a non-empty forecast is drawn, the first plotted forecast value
is the blend `0.7 * last historical + 0.3 * first forecast`, the forecast
trace is prepended with the last historical point, and with CI columns
present the first point's interval is re-centred on the blended value at
`± 0.3 *` the original range — so its width is `0.6 *` the original width
and its midpoint is the blended value. -/
theorem chart_forecast_blend (d0 : Ymd) (drest : List Ymd) (h0 : ℚ) (hrest : List ℚ)
    (fDates : List Ymd) (v0 : ℚ) (vrest : List ℚ) (l0 : ℚ) (lrest : List ℚ)
    (u0 : ℚ) (urest : List ℚ) :
    let lastV := ((h0 :: hrest).getLast?).getD 0
    let lastD := ((d0 :: drest).getLast?).getD ⟨0, 0, 0⟩
    let blended := lastV * (7/10) + v0 * (3/10)
    let res := create_indicator_chart (d0 :: drest) (h0 :: hrest) true fDates (v0 :: vrest)
        (some (l0 :: lrest, u0 :: urest))
    (res.map Chart.forecastY).getD [] = lastV :: blended :: vrest
    ∧ (res.map Chart.forecastX).getD [] = lastD :: fDates
    ∧ blended = (7/10) * lastV + (3/10) * v0
    ∧ blendAdjustCI lastV (v0 :: vrest) (l0 :: lrest) (u0 :: urest)
        = ((blended - (u0 - l0) * (3/10)) :: lrest, (blended + (u0 - l0) * (3/10)) :: urest)
    ∧ (blended + (u0 - l0) * (3/10)) - (blended - (u0 - l0) * (3/10)) = (6/10) * (u0 - l0)
    ∧ ((blended - (u0 - l0) * (3/10)) + (blended + (u0 - l0) * (3/10))) / 2 = blended := by
  intro lastV lastD blended res
  refine ⟨?_, ?_, by ring, rfl, by ring, by ring⟩
  · rfl
  · rfl

/-! ## C7: every generated forecast is a 6-period month-start projection -/

/-- Reading a list back off its indices. -/
theorem map_getD_range {α : Type} (l : List α) (d : α) :
    (List.range l.length).map (fun i => l.getD i d) = l := by
  apply List.ext_get
  · simp
  · intro n h1 h2
    simp [List.getD_eq_getElem?_getD, List.getElem?_eq_getElem h2]

/-- Indexing a mapped range. -/
theorem getD_map_range {α : Type} (n : Nat) (f : Nat → α) (d : α) (i : Nat) (h : i < n) :
    ((List.range n).map f).getD i d = f i := by
  rw [List.getD_eq_getElem?_getD, List.getElem?_map, List.getElem?_range h]
  rfl

/-- `ofMonthIndex` inverts the absolute month index. -/
theorem ymKey_ofMonthIndex (t : Nat) : ymKey (ofMonthIndex t) = t := by
  simp only [ymKey, ofMonthIndex]
  omega

/-- The dates of `generate_sample_forecast` are exactly `dateRangeMS`. -/
theorem generate_sample_forecast_dates (indicatorId : String) (y m : Nat) (noise : List ℚ) :
    (generate_sample_forecast indicatorId y m noise).map (fun r => r.1) = dateRangeMS y m 6 := by
  have hlen : (dateRangeMS y m 6).length = 6 := by simp [dateRangeMS]
  calc (generate_sample_forecast indicatorId y m noise).map (fun r => r.1)
      = (List.range 6).map (fun i => (dateRangeMS y m 6).getD i ⟨0, 0, 0⟩) := by
        simp [generate_sample_forecast, List.map_map]
    _ = (List.range ((dateRangeMS y m 6).length)).map
          (fun i => (dateRangeMS y m 6).getD i ⟨0, 0, 0⟩) := by rw [hlen]
    _ = dateRangeMS y m 6 := map_getD_range _ _

/-- The dates of `generate_sample_forecast_from_actual` are exactly
`dateRangeMS` (in both its branches). -/
theorem generate_sample_forecast_from_actual_dates (indicatorId : String) (y m : Nat)
    (actual : List ℚ) (noise : List ℚ) :
    (generate_sample_forecast_from_actual indicatorId y m actual noise).map (fun r => r.1)
      = dateRangeMS y m 6 := by
  have hlen : (dateRangeMS y m 6).length = 6 := by simp [dateRangeMS]
  have hstep : (List.range 6).map (fun i => (dateRangeMS y m 6).getD i ⟨0, 0, 0⟩)
      = dateRangeMS y m 6 := by
    rw [show (6 : Nat) = (dateRangeMS y m 6).length from hlen.symm]
    exact map_getD_range _ _
  simp only [generate_sample_forecast_from_actual]
  split_ifs with h1 h2 h3
  all_goals exact generate_sample_forecast_dates indicatorId y m noise

/-- C7: both forecast generators emit exactly 6 rows; the rows' dates are 6
consecutive month-start dates (day 1, month indices increasing by one)
beginning at the first day of the current month; each row carries value,
lower and upper confidence bound. -/
theorem forecast_six_month_start_rows (indicatorId : String) (y m : Nat)
    (noise : List ℚ) (actual : List ℚ) (hm1 : 1 ≤ m) (hm2 : m ≤ 12) :
    (generate_sample_forecast indicatorId y m noise).length = 6
    ∧ (generate_sample_forecast_from_actual indicatorId y m actual noise).length = 6
    ∧ (generate_sample_forecast indicatorId y m noise).map (fun r => r.1) = dateRangeMS y m 6
    ∧ (generate_sample_forecast_from_actual indicatorId y m actual noise).map (fun r => r.1)
        = dateRangeMS y m 6
    ∧ (dateRangeMS y m 6).headD ⟨0, 0, 0⟩ = ⟨y, m, 1⟩
    ∧ (∀ d ∈ dateRangeMS y m 6, d.d = 1)
    ∧ (∀ i, i + 1 < 6 →
        ymKey ((dateRangeMS y m 6).getD (i + 1) ⟨0, 0, 0⟩)
          = ymKey ((dateRangeMS y m 6).getD i ⟨0, 0, 0⟩) + 1) := by
  refine ⟨?_, ?_, generate_sample_forecast_dates _ _ _ _,
    generate_sample_forecast_from_actual_dates _ _ _ _ _, ?_, ?_, ?_⟩
  · simp [generate_sample_forecast]
  · have h := congrArg List.length (generate_sample_forecast_from_actual_dates indicatorId y m actual noise)
    simpa [dateRangeMS] using h
  · have hym : (y * 12 + (m - 1)) / 12 = y ∧ (y * 12 + (m - 1)) % 12 + 1 = m := by omega
    simp [dateRangeMS, List.range_succ_eq_map, ofMonthIndex, hym.1, hym.2]
  · intro d hd
    simp only [dateRangeMS, List.mem_map] at hd
    obtain ⟨i, _, rfl⟩ := hd
    rfl
  · intro i hi
    rw [dateRangeMS, getD_map_range 6 _ _ _ hi, getD_map_range 6 _ _ _ (by omega),
      ymKey_ofMonthIndex, ymKey_ofMonthIndex]
    omega

/-- Witness for `forecast_six_month_start_rows` at June 2025: the first
forecast date is 2025-06-01. -/
theorem forecast_six_month_start_rows_witness :
    (dateRangeMS 2025 6 6).headD ⟨0, 0, 0⟩ = ⟨2025, 6, 1⟩ :=
  (forecast_six_month_start_rows "x" 2025 6 [] [] (by decide) (by decide)).2.2.2.2.1

/-! ## C10: forecast confidence bounds -/

/-- Multiplicative confidence bounds bracket a positive value, with width
proportional to the value. -/
theorem ci_bracket_generic (v c : ℚ) (hv : 0 < v) (hc : 0 < c) :
    v * (1 - c) ≤ v ∧ v ≤ v * (1 + c) ∧ v * (1 + c) - v * (1 - c) = v * (2 * c) := by
  refine ⟨by nlinarith, by nlinarith, by ring⟩

/-- C10, counterexample: the claim says the interval widens monotonically
with the row index.  With realized draws `[0, -9/10]` (both rows' values
positive), row 1's interval of `generate_sample_forecast` is strictly
narrower than row 0's: the interval's absolute width scales with the value,
which the random walk can shrink faster than the width coefficient grows. -/
theorem forecast_ci_width_not_monotone :
    let rows := generate_sample_forecast "other" 2025 6 [0, -(9/10)]
    0 < (rows.getD 0 frDefault).2.1 ∧ 0 < (rows.getD 1 frDefault).2.1
    ∧ (rows.getD 1 frDefault).2.2.2 - (rows.getD 1 frDefault).2.2.1
        < (rows.getD 0 frDefault).2.2.2 - (rows.getD 0 frDefault).2.2.1 := by
  refine ⟨?_, ?_, ?_⟩ <;>
    norm_num +decide [generate_sample_forecast, chainValues, sfBase, strContains, hasSubstr,
      listLeads, dateRangeMS, ofMonthIndex, frDefault, List.getD]

/-- C10, amended: in every row of both generators whose value is positive,
`lower_ci ≤ value ≤ upper_ci`, and the interval's width equals the value
times a width coefficient (`0.01 + 0.006*i` for `generate_sample_forecast`,
`0.01 + 0.01*i` for the from-actual generator when it projects from at least
2 actual values) that strictly increases with the row index — so the
*relative* width widens monotonically, while the absolute width need not
(see `forecast_ci_width_not_monotone`). -/
theorem forecast_ci_brackets_value (indicatorId : String) (y m : Nat)
    (noise : List ℚ) (actual : List ℚ) (i : Nat) (hi : i < 6) :
    (∀ r : ForecastRow, r = (generate_sample_forecast indicatorId y m noise).getD i frDefault →
      0 < r.2.1 → r.2.2.1 ≤ r.2.1 ∧ r.2.1 ≤ r.2.2.2
        ∧ r.2.2.2 - r.2.2.1 = r.2.1 * (1/100 + (3/500) * (i : ℚ)))
    ∧ (2 ≤ actual.length →
      ∀ r : ForecastRow,
        r = (generate_sample_forecast_from_actual indicatorId y m actual noise).getD i frDefault →
        0 < r.2.1 → r.2.2.1 ≤ r.2.1 ∧ r.2.1 ≤ r.2.2.2
          ∧ r.2.2.2 - r.2.2.1 = r.2.1 * (1/100 + (1/100) * (i : ℚ)))
    ∧ (∀ j : Nat, (1/100 + (3/500) * (j : ℚ) : ℚ) < 1/100 + (3/500) * ((j : ℚ) + 1)
        ∧ (1/100 + (1/100) * (j : ℚ) : ℚ) < 1/100 + (1/100) * ((j : ℚ) + 1)) := by
  refine ⟨?_, ?_, ?_⟩
  · intro r hreq hv
    subst hreq
    rw [show (generate_sample_forecast indicatorId y m noise).getD i frDefault
        = ((dateRangeMS y m 6).getD i ⟨0, 0, 0⟩,
            (sfBase indicatorId * (1 + noise.getD 0 0) ::
              chainValues (fun j v => v * (1 + 1/500 + noise.getD j 0))
                (sfBase indicatorId * (1 + noise.getD 0 0)) 1 5).getD i 0,
            (sfBase indicatorId * (1 + noise.getD 0 0) ::
              chainValues (fun j v => v * (1 + 1/500 + noise.getD j 0))
                (sfBase indicatorId * (1 + noise.getD 0 0)) 1 5).getD i 0
              * (1 - (1/200 + (3/1000) * (i : ℚ))),
            (sfBase indicatorId * (1 + noise.getD 0 0) ::
              chainValues (fun j v => v * (1 + 1/500 + noise.getD j 0))
                (sfBase indicatorId * (1 + noise.getD 0 0)) 1 5).getD i 0
              * (1 + (1/200 + (3/1000) * (i : ℚ)))) from by
        simp only [generate_sample_forecast]
        exact getD_map_range 6 _ _ i hi] at hv ⊢
    have hc : (0 : ℚ) < 1/200 + (3/1000) * (i : ℚ) := by positivity
    have h := ci_bracket_generic _ _ hv hc
    refine ⟨h.1, h.2.1, ?_⟩
    rw [h.2.2]
    ring
  · intro hlen2 r hreq hv
    subst hreq
    have hne : actual.isEmpty = false := by
      cases actual with
      | nil => simp at hlen2
      | cons a l => simp
    have htail : (tailK (min 6 actual.length) actual).length = min 6 actual.length := by
      simp only [tailK, List.length_drop]
      omega
    have hrl : ¬ ((tailK (min 6 actual.length) actual).length ≤ 1) := by
      rw [htail]
      omega
    rw [show (generate_sample_forecast_from_actual indicatorId y m actual noise).getD i frDefault
        = ((dateRangeMS y m 6).getD i ⟨0, 0, 0⟩,
            (actual.getLast?.getD 0 *
                (1 + clampTrend (if (pctChanges (tailK (min 6 actual.length) actual)).isEmpty
                    then 1/200 else listMean (pctChanges (tailK (min 6 actual.length) actual)))
                  + noise.getD 0 0) ::
              chainValues (fun j v => v *
                  (1 + clampTrend (if (pctChanges (tailK (min 6 actual.length) actual)).isEmpty
                      then 1/200 else listMean (pctChanges (tailK (min 6 actual.length) actual)))
                    + noise.getD j 0))
                (actual.getLast?.getD 0 *
                  (1 + clampTrend (if (pctChanges (tailK (min 6 actual.length) actual)).isEmpty
                      then 1/200 else listMean (pctChanges (tailK (min 6 actual.length) actual)))
                    + noise.getD 0 0)) 1 5).getD i 0,
            (actual.getLast?.getD 0 *
                (1 + clampTrend (if (pctChanges (tailK (min 6 actual.length) actual)).isEmpty
                    then 1/200 else listMean (pctChanges (tailK (min 6 actual.length) actual)))
                  + noise.getD 0 0) ::
              chainValues (fun j v => v *
                  (1 + clampTrend (if (pctChanges (tailK (min 6 actual.length) actual)).isEmpty
                      then 1/200 else listMean (pctChanges (tailK (min 6 actual.length) actual)))
                    + noise.getD j 0))
                (actual.getLast?.getD 0 *
                  (1 + clampTrend (if (pctChanges (tailK (min 6 actual.length) actual)).isEmpty
                      then 1/200 else listMean (pctChanges (tailK (min 6 actual.length) actual)))
                    + noise.getD 0 0)) 1 5).getD i 0
              * (1 - (1/200 + (1/200) * (i : ℚ))),
            (actual.getLast?.getD 0 *
                (1 + clampTrend (if (pctChanges (tailK (min 6 actual.length) actual)).isEmpty
                    then 1/200 else listMean (pctChanges (tailK (min 6 actual.length) actual)))
                  + noise.getD 0 0) ::
              chainValues (fun j v => v *
                  (1 + clampTrend (if (pctChanges (tailK (min 6 actual.length) actual)).isEmpty
                      then 1/200 else listMean (pctChanges (tailK (min 6 actual.length) actual)))
                    + noise.getD j 0))
                (actual.getLast?.getD 0 *
                  (1 + clampTrend (if (pctChanges (tailK (min 6 actual.length) actual)).isEmpty
                      then 1/200 else listMean (pctChanges (tailK (min 6 actual.length) actual)))
                    + noise.getD 0 0)) 1 5).getD i 0
              * (1 + (1/200 + (1/200) * (i : ℚ)))) from by
        simp only [generate_sample_forecast_from_actual, hne, Bool.false_eq_true, if_false, hrl]
        exact getD_map_range 6 _ _ i hi] at hv ⊢
    have hc : (0 : ℚ) < 1/200 + (1/200) * (i : ℚ) := by positivity
    have h := ci_bracket_generic _ _ hv hc
    refine ⟨h.1, h.2.1, ?_⟩
    rw [h.2.2]
    ring
  · intro j
    constructor <;> nlinarith [Nat.cast_nonneg (α := ℚ) j]

/-- Witness for `forecast_ci_brackets_value`: at row 0 of a concrete sample
forecast the lower bound does not exceed the value. -/
theorem forecast_ci_brackets_value_witness :
    ((generate_sample_forecast "w" 2025 6 []).getD 0 frDefault).2.2.1
      ≤ ((generate_sample_forecast "w" 2025 6 []).getD 0 frDefault).2.1 :=
  ((forecast_ci_brackets_value "w" 2025 6 [] [100, 101] 0 (by decide)).1
    ((generate_sample_forecast "w" 2025 6 []).getD 0 frDefault) rfl (by
      norm_num +decide [generate_sample_forecast, chainValues, sfBase, strContains, hasSubstr,
        listLeads, dateRangeMS, ofMonthIndex, frDefault, List.getD])).1

/-! ## C3: derived month-over-month and year-over-year change columns -/

/-- The shifted-division pct-change column coincides with the claims'
indexwise formula. -/
theorem pctChangeCol_eq_specPctCol (k : Nat) (vs : List ℚ) :
    pctChangeCol k vs = specPctCol k vs := by
  apply List.ext_getElem?
  intro i
  rw [pctChangeCol, specPctCol, List.getElem?_zipWith', List.getElem?_map]
  by_cases hi : i < vs.length
  · rw [List.getElem?_range hi]
    by_cases hik : i < k
    · rw [List.getElem?_append_left (by simpa using hik), List.getElem?_replicate_of_lt hik]
      simp [List.getElem?_eq_getElem hi, hik]
    · have hk : k ≤ i := not_lt.mp hik
      have hik2 : i - k < vs.length := by omega
      rw [List.getElem?_append_right (by simpa using hk), List.length_replicate,
        List.getElem?_map, List.getElem?_eq_getElem hi, List.getElem?_eq_getElem hik2]
      simp [hik, List.getD_eq_getElem?_getD, List.getElem?_eq_getElem hi,
        List.getElem?_eq_getElem hik2]
  · have h1 : vs[i]? = none := List.getElem?_eq_none (by omega)
    have h2 : (List.range vs.length)[i]? = none := by
      apply List.getElem?_eq_none
      simpa using not_lt.mp hi
    simp [h1, h2]

/-- Inversion of a successful per-file load: the derived-metric columns of
the result are computed from its (filtered) rows exactly as in the source. -/
theorem processFile_spec (now : Ymd) (indicatorId : String) (pathSample : Bool) (t : Tbl)
    (r : LoadResult) (h : processFile now indicatorId pathSample t = some r) :
    r.monthly = (if t.hasMonthly then none
      else if 1 < r.rows.length then some (pctChangeCol 1 (r.rows.map Row.value)) else none)
    ∧ r.yoy = (if t.hasYoy then none
      else if 12 ≤ r.rows.length then some (pctChangeCol 12 (r.rows.map Row.value)) else none) := by
  rw [processFile] at h
  dsimp only at h
  repeat' split at h
  all_goals
    first
      | (obtain rfl := Option.some.inj h
         constructor <;> simp_all <;> (split <;> first | rfl | omega))
      | simp at h

/-- C3: when a loaded table lacks the derived-metric columns,
`load_indicator_data`'s per-file pipeline adds month-over-month change
`monthly_change[i] = (value[i]/value[i-1] - 1) * 100` for every row `i ≥ 1`
of a series with more than one row, and year-over-year change
`yoy_change[i] = (value[i]/value[i-12] - 1) * 100` (rows `i ≥ 12`) whenever
the series has at least 12 rows. -/
theorem loader_adds_pct_change_columns (now : Ymd) (indicatorId : String)
    (pathSample : Bool) (t : Tbl) (hm : t.hasMonthly = false) (hy : t.hasYoy = false) :
    (1 < (loadedValues (processFile now indicatorId pathSample t)).length →
      loadedMonthly (processFile now indicatorId pathSample t)
        = some (specPctCol 1 (loadedValues (processFile now indicatorId pathSample t))))
    ∧ (12 ≤ (loadedValues (processFile now indicatorId pathSample t)).length →
      loadedYoy (processFile now indicatorId pathSample t)
        = some (specPctCol 12 (loadedValues (processFile now indicatorId pathSample t)))) := by
  cases hP : processFile now indicatorId pathSample t with
  | none =>
    constructor <;> intro h <;> simp [loadedValues] at h
  | some r =>
    obtain ⟨hmth, hyoy⟩ := processFile_spec now indicatorId pathSample t r hP
    constructor
    · intro h
      simp only [loadedValues, Option.map_some', Option.getD_some] at h
      have hlen : 1 < r.rows.length := by simpa using h
      simp only [loadedMonthly, loadedValues, Option.map_some', Option.getD_some]
      rw [hmth, hm]
      simp only [Bool.false_eq_true, if_false]
      rw [if_pos hlen, pctChangeCol_eq_specPctCol]
    · intro h
      simp only [loadedValues, Option.map_some', Option.getD_some] at h
      have hlen : 12 ≤ r.rows.length := by simpa using h
      simp only [loadedYoy, loadedValues, Option.map_some', Option.getD_some]
      rw [hyoy, hy]
      simp only [Bool.false_eq_true, if_false]
      rw [if_pos hlen, pctChangeCol_eq_specPctCol]

/-- Witness for `loader_adds_pct_change_columns` on a concrete 13-row table:
both derived columns are added and match the indexwise formula. -/
theorem loader_adds_pct_change_columns_witness :
    loadedMonthly (processFile nowW "x" false tblW)
      = some (specPctCol 1 (loadedValues (processFile nowW "x" false tblW)))
    ∧ loadedYoy (processFile nowW "x" false tblW)
      = some (specPctCol 12 (loadedValues (processFile nowW "x" false tblW))) := by
  have h := loader_adds_pct_change_columns nowW "x" false tblW rfl rfl
  exact ⟨h.1 (by decide), h.2 (by decide)⟩

/-! ## C4: trend labels from recent value windows -/

/-- `pct_change` as an indexwise map. -/
theorem pctChanges_eq_map_range (l : List ℚ) :
    pctChanges l = (List.range (l.length - 1)).map
      (fun j => l.getD (j + 1) 0 / l.getD j 0 - 1) := by
  apply List.ext_getElem?
  intro i
  rw [pctChanges, List.getElem?_zipWith',
    show l.tail = l.drop 1 from (List.drop_one l).symm, List.getElem?_drop, List.getElem?_map]
  by_cases hi : i < l.length - 1
  · have hi1 : i < l.length := by omega
    have hi2 : 1 + i < l.length := by omega
    rw [List.getElem?_range hi, List.getElem?_eq_getElem hi1, List.getElem?_eq_getElem hi2]
    simp [List.getD_eq_getElem?_getD, List.getElem?_eq_getElem hi1,
      List.getElem?_eq_getElem (show i + 1 < l.length by omega), Nat.add_comm 1 i]
  · have h2 : l[1 + i]? = none := List.getElem?_eq_none (by omega)
    have h3 : (List.range (l.length - 1))[i]? = none := by
      apply List.getElem?_eq_none
      simpa using not_lt.mp hi
    rw [h2, h3]
    cases l[i]? <;> simp

/-- Reading `tailK` cells back in the base list. -/
theorem tailK_getD (k : Nat) (vs : List ℚ) (i : Nat) :
    (tailK k vs).getD i 0 = vs.getD (vs.length - k + i) 0 := by
  rw [tailK, List.getD_eq_getElem?_getD, List.getElem?_drop, ← List.getD_eq_getElem?_getD]

/-- The code's recent trend (mean `pct_change` of the `min(6, len)`-tail,
times 100) equals the claim's indexwise formula. -/
theorem recentTrend_eq_spec (vals : List ℚ) (h2 : 2 ≤ vals.length) :
    listMean (pctChanges (tailK (min 6 vals.length) vals)) * 100 = specRecentTrend vals := by
  have hk : (tailK (min 6 vals.length) vals).length = min 6 vals.length := by
    simp only [tailK, List.length_drop]
    omega
  rw [listMean, pctChanges_eq_map_range, specRecentTrend, hk]
  have hmap : (List.range (min 6 vals.length - 1)).map
      (fun j => (tailK (min 6 vals.length) vals).getD (j + 1) 0
        / (tailK (min 6 vals.length) vals).getD j 0 - 1)
      = (List.range (min 6 vals.length - 1)).map
      (fun j => vals.getD (vals.length - min 6 vals.length + j + 1) 0
        / vals.getD (vals.length - min 6 vals.length + j) 0 - 1) := by
    apply List.map_congr_left
    intro j _
    rw [tailK_getD, tailK_getD]
    rfl
  rw [hmap]
  simp only [List.length_map, List.length_range]
  have h1 : 1 ≤ min 6 vals.length := by omega
  have hcast : ((min 6 vals.length - 1 : ℕ) : ℚ) = ((min 6 vals.length : ℕ) : ℚ) - 1 := by
    push_cast [Nat.cast_sub h1]
    ring
  rw [hcast]

/-- `determine_trend` on a series of length at least 2 classifies by the
claim's combined trend with thresholds `±0.7`. -/
theorem determine_trend_eq_spec (vals : List ℚ) (fvals : Option (List ℚ))
    (h2 : 2 ≤ vals.length) :
    determine_trend vals fvals =
      (if 7/10 < specCombinedTrend vals fvals then
        ("↑ Increasing", "trend-up", "Prices have been trending upward.")
      else if specCombinedTrend vals fvals < -(7/10) then
        ("↓ Decreasing", "trend-down", "Prices have been trending downward.")
      else ("→ Stable", "trend-stable", "Prices have been relatively stable.")) := by
  have hne : vals.isEmpty = false := by
    cases vals with
    | nil => simp at h2
    | cons a l => rfl
  rw [determine_trend, hne]
  simp only [Bool.false_eq_true, if_false, if_pos h2]
  rw [specCombinedTrend]
  have hrt := recentTrend_eq_spec vals h2
  cases hfv : fvals.bind (fun l => if l.isEmpty then none else some l) with
  | none =>
    rw [hrt]
  | some l =>
    rw [hrt]
    simp only [specForecastTrend]

/-- C4: the trend label is `'↑ Increasing'` exactly when the combined trend
(the mean percentage change of the last `min(6, len)` values, averaged with
the forecast trend `(last-first)/first*100` when a forecast is present)
exceeds 0.7, `'↓ Decreasing'` exactly when it is below -0.7, and
`'→ Stable'` otherwise — and also whenever the series has fewer than 2 rows;
`get_trend_indicator` applied to the same window agrees with
`determine_trend`.  The positivity hypotheses keep all divisions inside the
modelled (NaN-free) regime. -/
theorem trend_label_thresholds (vals : List ℚ) (fvals : Option (List ℚ))
    (hv : ∀ v ∈ vals, 0 < v)
    (hf : ∀ l, fvals = some l → ∀ v ∈ l, 0 < v)
    (hfe : fvals ≠ some []) :
    (vals.length < 2 → (determine_trend vals fvals).1 = "→ Stable"
      ∧ (determine_trend vals fvals).2.1 = "trend-stable")
    ∧ (2 ≤ vals.length →
      (((determine_trend vals fvals).1 = "↑ Increasing")
          ↔ 7/10 < specCombinedTrend vals fvals)
      ∧ (((determine_trend vals fvals).1 = "↓ Decreasing")
          ↔ specCombinedTrend vals fvals < -(7/10))
      ∧ (((determine_trend vals fvals).1 = "→ Stable")
          ↔ (¬ 7/10 < specCombinedTrend vals fvals
              ∧ ¬ specCombinedTrend vals fvals < -(7/10))))
    ∧ get_trend_indicator (some (tailK (min 6 vals.length) vals)) fvals
        = ((determine_trend vals fvals).1, (determine_trend vals fvals).2.1) := by
  have hbind : fvals.bind (fun l => if l.isEmpty then none else some l) = fvals := by
    cases fvals with
    | none => rfl
    | some l =>
      cases l with
      | nil => exact absurd rfl hfe
      | cons a t => rfl
  refine ⟨?_, ?_, ?_⟩
  · intro hlt
    rw [determine_trend]
    by_cases hne : vals.isEmpty
    · rw [if_pos hne]
      exact ⟨rfl, rfl⟩
    · rw [if_neg hne, if_neg (by omega)]
      exact ⟨rfl, rfl⟩
  · intro h2
    rw [determine_trend_eq_spec vals fvals h2]
    by_cases hup : 7/10 < specCombinedTrend vals fvals
    · rw [if_pos hup]
      exact ⟨iff_of_true rfl hup, iff_of_false (by decide) (by linarith),
        iff_of_false (by decide) (fun h => h.1 hup)⟩
    · rw [if_neg hup]
      by_cases hdn : specCombinedTrend vals fvals < -(7/10)
      · rw [if_pos hdn]
        exact ⟨iff_of_false (by decide) hup, iff_of_true rfl hdn,
          iff_of_false (by decide) (fun h => h.2 hdn)⟩
      · rw [if_neg hdn]
        exact ⟨iff_of_false (by decide) hup, iff_of_false (by decide) hdn,
          iff_of_true rfl ⟨hup, hdn⟩⟩
  · by_cases h2 : 2 ≤ vals.length
    · have hkl : (tailK (min 6 vals.length) vals).length = min 6 vals.length := by
        simp only [tailK, List.length_drop]
        omega
      rw [determine_trend_eq_spec vals fvals h2]
      simp only [get_trend_indicator]
      rw [if_neg (by omega)]
      rw [specCombinedTrend, hbind]
      have hrt := recentTrend_eq_spec vals h2
      cases hfv : fvals with
      | none =>
        dsimp only
        rw [hrt]
        split_ifs <;> rfl
      | some l =>
        dsimp only
        rw [hrt]
        simp only [specForecastTrend]
        split_ifs <;> rfl
    · have hlt : vals.length < 2 := by omega
      have hkl : (tailK (min 6 vals.length) vals).length = min 6 vals.length := by
        simp only [tailK, List.length_drop]
        omega
      simp only [get_trend_indicator]
      rw [if_pos (by omega), determine_trend]
      by_cases hne : vals.isEmpty
      · rw [if_pos hne]
      · rw [if_neg hne, if_neg (by omega)]

/-- Witness for `trend_label_thresholds`: a concrete rising series is
labelled `'↑ Increasing'`. -/
theorem trend_label_thresholds_witness :
    (determine_trend [100, 101, 102] none).1 = "↑ Increasing" := by
  have h := trend_label_thresholds [100, 101, 102] none
    (by intro v hv; fin_cases hv <;> norm_num)
    (by intro l hl; exact absurd hl (by simp))
    (by simp)
  exact ((h.2.1 (by decide)).1).mpr (by
    norm_num [specCombinedTrend, specRecentTrend, List.range_succ, List.getD])

/-! ## C8: the preferred-direction flag -/

/-- A property holding on every value of an association list and on the
default holds on a defaulted lookup. -/
theorem lookup_getD_mem {α β : Type} [BEq α] (P : β → Prop) (l : List (α × β)) (a : α) (d : β)
    (hl : ∀ p ∈ l, P p.2) (hd : P d) : P ((l.lookup a).getD d) := by
  induction l with
  | nil => exact hd
  | cons p rest ih =>
    obtain ⟨k, b⟩ := p
    rw [List.lookup]
    cases hab : a == k with
    | true =>
      simpa using hl (k, b) (by simp)
    | false =>
      exact ih (fun q hq => hl q (by simp [hq]))

/-- `get_default_preferred_direction` only ever returns `'down'` or
`'neutral'` (so in particular a member of `{up, down, neutral}`). -/
theorem default_direction_down_or_neutral (indicatorId : String) :
    get_default_preferred_direction indicatorId = "down"
    ∨ get_default_preferred_direction indicatorId = "neutral" := by
  rw [get_default_preferred_direction]
  apply lookup_getD_mem (fun s => s = "down" ∨ s = "neutral")
  · intro p hp
    rw [preferredDirections] at hp
    fin_cases hp <;> simp
  · right
    rfl

/-- Rows built by `mkRows` take their `preferred_direction` cell from the
supplied column. -/
theorem mkRows_prefDir_mem (ds : List Ymd) (vs : List ℚ) (pd : List String) (sf : List Bool)
    (x : Row) (hx : x ∈ mkRows ds vs pd sf) : x.prefDir ∈ pd := by
  rw [mkRows] at hx
  obtain ⟨p, hp, rfl⟩ := List.mem_map.mp hx
  exact (List.mem_zip (List.mem_zip hp).2).1

/-- When the table has no `preferred_direction` column, every row of a
successful per-file load carries the defaulted direction. -/
theorem processFile_prefDir_default (now : Ymd) (indicatorId : String) (pathSample : Bool)
    (t : Tbl) (r : LoadResult) (hcol : t.prefDirCol = none)
    (h : processFile now indicatorId pathSample t = some r) :
    ∀ x ∈ r.rows, x.prefDir = get_default_preferred_direction indicatorId := by
  rw [processFile] at h
  dsimp only at h
  rw [hcol] at h
  repeat' split at h
  all_goals
    first
      | (obtain rfl := Option.some.inj h
         intro x hx
         simp only [Option.getD_none] at hx
         first
           | (exact List.eq_of_mem_replicate
               (mkRows_prefDir_mem _ _ _ _ x (List.mem_filter.mp hx).1))
           | (exact List.eq_of_mem_replicate (mkRows_prefDir_mem _ _ _ _ x hx)))
      | simp at h

/-- Every row of the synthesized sample data carries the defaulted
direction. -/
theorem sample_prefDir_default (indicatorId : String) (y m : Nat) (pert : List ℚ) :
    ∀ x ∈ (generate_sample_data indicatorId y m pert).rows,
      x.prefDir = get_default_preferred_direction indicatorId := by
  intro x hx
  rw [generate_sample_data] at hx
  dsimp only at hx
  exact List.eq_of_mem_replicate (mkRows_prefDir_mem _ _ _ _ x hx)

/-- The candidate loop preserves the defaulted direction when no candidate
table carries a `preferred_direction` column. -/
theorem firstUsable_prefDir_default (now : Ymd) (indicatorId : String)
    (cands : List (Bool × Option Tbl))
    (hc : ∀ ps t, (ps, some t) ∈ cands → t.prefDirCol = none)
    (r : LoadResult) (h : firstUsable now indicatorId cands = some r) :
    ∀ x ∈ r.rows, x.prefDir = get_default_preferred_direction indicatorId := by
  induction cands with
  | nil => simp [firstUsable] at h
  | cons c rest ih =>
    rw [firstUsable] at h
    cases hc2 : c.2 with
    | none =>
      rw [hc2] at h
      exact ih (fun ps t ht => hc ps t (List.mem_cons_of_mem c ht)) h
    | some t =>
      rw [hc2] at h
      dsimp only at h
      have hmem : (c.1, some t) ∈ c :: rest := by
        rw [show (c.1, some t) = c from by rw [← hc2]]
        exact List.mem_cons_self c rest
      cases hp : processFile now indicatorId c.1 t with
      | some r2 =>
        rw [hp] at h
        obtain rfl := Option.some.inj h
        exact processFile_prefDir_default now indicatorId c.1 t r2 (hc c.1 t hmem) hp
      | none =>
        rw [hp] at h
        exact ih (fun ps t2 ht => hc ps t2 (List.mem_cons_of_mem c ht)) h

/-- C8, counterexample: the claim says every row emitted by the loaders
carries a `preferred_direction` in `{up, down, neutral}`.  A file whose own
`preferred_direction` column holds `'sideways'` is passed through unchanged
by `load_indicator_data` (the default is only filled in when the column is
absent), so the emitted row carries `'sideways'`, outside the set. -/
theorem loader_keeps_file_preferred_direction :
    ((load_indicator_data nowW "x" [(false, some tblSideways)] []).1.rows.headD
        rowDefault).prefDir = "sideways"
    ∧ ¬ ("sideways" = "up" ∨ "sideways" = "down" ∨ "sideways" = "neutral") := by
  constructor
  · decide
  · decide

/-- C8, amended: `get_default_preferred_direction` always returns a member of
`{up, down, neutral}` (in fact only `'down'` or `'neutral'`), and every row
whose `preferred_direction` the loaders fill in — i.e. rows from candidate
tables without that column, and all synthesized sample rows — carries a
value in `{up, down, neutral}`; rows from files that already carry the
column retain the file's value, whatever it is
(`loader_keeps_file_preferred_direction`). -/
theorem preferred_direction_default_amended :
    (∀ indicatorId : String,
      get_default_preferred_direction indicatorId = "up"
      ∨ get_default_preferred_direction indicatorId = "down"
      ∨ get_default_preferred_direction indicatorId = "neutral")
    ∧ (∀ (now : Ymd) (indicatorId : String) (cands : List (Bool × Option Tbl)) (pert : List ℚ),
      (∀ ps t, (ps, some t) ∈ cands → t.prefDirCol = none) →
      ∀ x ∈ (load_indicator_data now indicatorId cands pert).1.rows,
        x.prefDir = "up" ∨ x.prefDir = "down" ∨ x.prefDir = "neutral") := by
  constructor
  · intro indicatorId
    rcases default_direction_down_or_neutral indicatorId with h | h
    · right
      left
      exact h
    · right
      right
      exact h
  · intro now indicatorId cands pert hc x hx
    have hdflt : x.prefDir = get_default_preferred_direction indicatorId := by
      rw [load_indicator_data] at hx
      cases hF : firstUsable now indicatorId cands with
      | some r =>
        rw [hF] at hx
        exact firstUsable_prefDir_default now indicatorId cands hc r hF x hx
      | none =>
        rw [hF] at hx
        exact sample_prefDir_default indicatorId now.y now.m pert x hx
    rw [hdflt]
    rcases default_direction_down_or_neutral indicatorId with h | h
    · right
      left
      exact h
    · right
      right
      exact h

/-- Witness for `preferred_direction_default_amended` on a concrete
column-free table: the first emitted row's direction is in the set. -/
theorem preferred_direction_default_amended_witness :
    (get_default_preferred_direction "zzz" = "up"
      ∨ get_default_preferred_direction "zzz" = "down"
      ∨ get_default_preferred_direction "zzz" = "neutral")
    ∧ (((load_indicator_data nowW "abc" [(false, some tblW)] []).1.rows.headD
          rowDefault).prefDir = "up"
      ∨ ((load_indicator_data nowW "abc" [(false, some tblW)] []).1.rows.headD
          rowDefault).prefDir = "down"
      ∨ ((load_indicator_data nowW "abc" [(false, some tblW)] []).1.rows.headD
          rowDefault).prefDir = "neutral") := by
  constructor
  · exact preferred_direction_default_amended.1 "zzz"
  · apply preferred_direction_default_amended.2 nowW "abc" [(false, some tblW)] []
    · intro ps t ht
      rw [List.mem_singleton] at ht
      rw [Prod.ext_iff] at ht
      obtain ⟨-, h2⟩ := ht
      obtain rfl := Option.some.inj h2
      rfl
    · decide

/-! ## C1: totality of `load_indicator_data` -/

/-- `chainValues` always yields the requested number of values. -/
theorem chainValues_length (step : Nat → ℚ → ℚ) (v : ℚ) (i n : Nat) :
    (chainValues step v i n).length = n := by
  induction n generalizing v i with
  | zero => rfl
  | succ k ih => simp [chainValues, ih]

/-- C1, counterexample: the claim says `load_indicator_data` never returns an
empty result.  A candidate file that parses, has `Date` and `value` columns
and a `last_updated_date` column, but whose rows are all future-dated
(here 2030-01-01 against "today" 2025-06-15), is accepted and returned with
every row filtered out: an empty frame, and with `using_sample_data =
False`. -/
theorem loader_returns_empty_on_future_dated_file :
    (load_indicator_data nowW "x" [(false, some tblFuture)] []).1.rows = []
    ∧ (load_indicator_data nowW "x" [(false, some tblFuture)] []).2 = false := by
  constructor
  · decide
  · decide

/-- C1, amended: whenever no candidate file is accepted by the per-file
pipeline (none yields a non-empty table with resolvable `Date`/`value`
columns — or a candidate is skipped for a parse failure or the all-future
`NaT.strftime` raise), `load_indicator_data` returns the synthesized sample
series with `using_sample_data = True`, and that fallback series is never
empty (it has exactly 25 monthly rows: two years back through the current
month).  The unconditional "never returns an empty result" of the claim
fails: see `loader_returns_empty_on_future_dated_file`. -/
theorem loader_falls_back_to_sample (now : Ymd) (indicatorId : String)
    (cands : List (Bool × Option Tbl)) (pert : List ℚ)
    (h : firstUsable now indicatorId cands = none) :
    load_indicator_data now indicatorId cands pert
      = (generate_sample_data indicatorId now.y now.m pert, true)
    ∧ (generate_sample_data indicatorId now.y now.m pert).rows.length = 25 := by
  constructor
  · rw [load_indicator_data, h]
  · rw [generate_sample_data]
    dsimp only
    rw [mkRows]
    simp [List.length_zip, chainValues_length]

/-- Witness for `loader_falls_back_to_sample` with an empty candidate list. -/
theorem loader_falls_back_to_sample_witness :
    load_indicator_data nowW "abc" [] [] = (generate_sample_data "abc" 2025 6 [], true)
    ∧ (generate_sample_data "abc" 2025 6 []).rows.length = 25 :=
  loader_falls_back_to_sample nowW "abc" [] [] rfl

/-! ## C9: `filter_time_period` never drops the most recent observation -/

/-- Every month has at most 31 days. -/
theorem daysInMonth_le_31 (y m : Nat) : daysInMonth y m ≤ 31 := by
  rw [daysInMonth]
  split_ifs <;> omega

/-- Stepping back at least one month strictly before a calendar date never
moves past it: the window start is at most the window end. -/
theorem subMonths_key_le (n : Nat) (a : Ymd) (hn : 1 ≤ n) (hy : 1 ≤ a.y)
    (hm1 : 1 ≤ a.m) (hm2 : a.m ≤ 12) : (subMonths n a).key ≤ a.key := by
  rw [subMonths, Ymd.key, Ymd.key]
  dsimp only
  generalize hd2 : min a.d (daysInMonth ((a.y * 12 + (a.m - 1) - n) / 12)
      ((a.y * 12 + (a.m - 1) - n) % 12 + 1)) = d2
  have hd : d2 ≤ 31 := by
    rw [← hd2]
    exact le_trans (Nat.min_le_right _ _) (daysInMonth_le_31 _ _)
  omega

/-- The running maximum of the date fold is an upper bound. -/
theorem foldl_dmax_ub (rs : List (Ymd × ℚ)) (a : Ymd) :
    a.key ≤ (rs.foldl (fun x b => if x.key < b.1.key then b.1 else x) a).key
    ∧ ∀ r ∈ rs, r.1.key ≤ (rs.foldl (fun x b => if x.key < b.1.key then b.1 else x) a).key := by
  induction rs generalizing a with
  | nil =>
    exact ⟨le_refl _, by simp⟩
  | cons r rest ih =>
    have hstep : a.key ≤ (if a.key < r.1.key then r.1 else a).key := by
      split_ifs with h
      · omega
      · exact le_refl _
    have hstepr : r.1.key ≤ (if a.key < r.1.key then r.1 else a).key := by
      split_ifs with h
      · exact le_refl _
      · omega
    constructor
    · exact le_trans hstep (ih _).1
    · intro x hx
      rcases List.mem_cons.mp hx with rfl | hx2
      · exact le_trans hstepr (ih _).1
      · exact (ih _).2 x hx2

/-- The running maximum of the date fold is attained by some element (or is
the seed). -/
theorem foldl_dmax_mem (rs : List (Ymd × ℚ)) (a : Ymd) :
    (rs.foldl (fun x b => if x.key < b.1.key then b.1 else x) a) = a
    ∨ (rs.foldl (fun x b => if x.key < b.1.key then b.1 else x) a) ∈ rs.map Prod.fst := by
  induction rs generalizing a with
  | nil =>
    left
    rfl
  | cons r rest ih =>
    simp only [List.foldl_cons]
    rcases ih (if a.key < r.1.key then r.1 else a) with h | h
    · by_cases hik : a.key < r.1.key
      · right
        rw [h, if_pos hik]
        exact List.mem_map.mpr ⟨r, List.mem_cons_self r rest, rfl⟩
      · left
        rw [h, if_neg hik]
    · right
      simp only [List.map_cons]
      exact List.mem_cons_of_mem _ h

/-- The maximum date of a non-empty sequence of rows: it is attained and it
bounds every date. -/
theorem dmaxRows_spec (rows : List (Ymd × ℚ)) (hne : rows ≠ []) :
    (∃ r ∈ rows, r.1 = dmaxRows rows)
    ∧ ∀ r ∈ rows, r.1.key ≤ (dmaxRows rows).key := by
  cases rows with
  | nil => exact absurd rfl hne
  | cons r0 rest =>
    rw [dmaxRows]
    constructor
    · rcases foldl_dmax_mem rest r0.1 with h | h
      · exact ⟨r0, List.mem_cons_self r0 rest, h.symm⟩
      · obtain ⟨x, hx, hx1⟩ := List.mem_map.mp h
        exact ⟨x, List.mem_cons_of_mem r0 hx, hx1⟩
    · intro x hx
      rcases List.mem_cons.mp hx with rfl | hx2
      · exact (foldl_dmax_ub rest x.1).1
      · exact (foldl_dmax_ub rest r0.1).2 x hx2

/-- The running minimum of the date fold is a lower bound. -/
theorem foldl_dmin_lb (rs : List (Ymd × ℚ)) (a : Ymd) :
    (rs.foldl (fun x b => if b.1.key < x.key then b.1 else x) a).key ≤ a.key
    ∧ ∀ r ∈ rs, (rs.foldl (fun x b => if b.1.key < x.key then b.1 else x) a).key ≤ r.1.key := by
  induction rs generalizing a with
  | nil =>
    exact ⟨le_refl _, by simp⟩
  | cons r rest ih =>
    have hstep : (if r.1.key < a.key then r.1 else a).key ≤ a.key := by
      split_ifs with h
      · omega
      · exact le_refl _
    have hstepr : (if r.1.key < a.key then r.1 else a).key ≤ r.1.key := by
      split_ifs with h
      · exact le_refl _
      · omega
    constructor
    · exact le_trans (ih _).1 hstep
    · intro x hx
      rcases List.mem_cons.mp hx with rfl | hx2
      · exact le_trans (ih _).1 hstepr
      · exact (ih _).2 x hx2

/-- The minimum date bounds every date from below. -/
theorem dminRows_le (rows : List (Ymd × ℚ)) :
    ∀ r ∈ rows, (dminRows rows).key ≤ r.1.key := by
  cases rows with
  | nil => simp
  | cons r0 rest =>
    rw [dminRows]
    intro x hx
    rcases List.mem_cons.mp hx with rfl | hx2
    · exact le_trans (foldl_dmin_lb rest x.1).1 (le_refl _)
    · exact (foldl_dmin_lb rest r0.1).2 x hx2

/-- C9: `filter_time_period` never drops the most recent observation: for
every non-empty frame of calendar-dated rows and every time-period
selection, every returned row originates from the input, and every input row
bearing the maximum date is in the output (the window is anchored at the
data's own maximum date, whose window start cannot exceed it). -/
theorem filter_time_period_keeps_latest (rows : List (Ymd × ℚ)) (timePeriod : String)
    (hne : rows ≠ [])
    (hvalid : ∀ r ∈ rows, 1 ≤ r.1.y ∧ 1 ≤ r.1.m ∧ r.1.m ≤ 12) :
    (∀ r ∈ filter_time_period rows timePeriod, r ∈ rows)
    ∧ (∀ r ∈ rows, r.1 = dmaxRows rows → r ∈ filter_time_period rows timePeriod) := by
  have hne2 : rows.isEmpty = false := by
    cases rows with
    | nil => exact absurd rfl hne
    | cons a l => rfl
  obtain ⟨⟨rE, hrE, hrE1⟩, hub⟩ := dmaxRows_spec rows hne
  have hvE := hvalid rE hrE
  have hstartle : (if timePeriod = "Last 6 Months" then subMonths 6 (dmaxRows rows)
      else if timePeriod = "Last 12 Months" then subMonths 12 (dmaxRows rows)
      else if timePeriod = "Last 24 Months" then subMonths 24 (dmaxRows rows)
      else dminRows rows).key ≤ (dmaxRows rows).key := by
    have hvmax : 1 ≤ (dmaxRows rows).y ∧ 1 ≤ (dmaxRows rows).m ∧ (dmaxRows rows).m ≤ 12 := by
      rw [← hrE1]
      exact hvE
    split_ifs
    · exact subMonths_key_le 6 _ (by omega) hvmax.1 hvmax.2.1 hvmax.2.2
    · exact subMonths_key_le 12 _ (by omega) hvmax.1 hvmax.2.1 hvmax.2.2
    · exact subMonths_key_le 24 _ (by omega) hvmax.1 hvmax.2.1 hvmax.2.2
    · rw [← hrE1]
      exact dminRows_le rows rE hrE
  have hlatest : ∀ r ∈ rows, r.1 = dmaxRows rows →
      r ∈ rows.filter (fun r => (if timePeriod = "Last 6 Months" then subMonths 6 (dmaxRows rows)
        else if timePeriod = "Last 12 Months" then subMonths 12 (dmaxRows rows)
        else if timePeriod = "Last 24 Months" then subMonths 24 (dmaxRows rows)
        else dminRows rows).key ≤ r.1.key && r.1.key ≤ (dmaxRows rows).key) := by
    intro r hr hr1
    refine List.mem_filter.mpr ⟨hr, ?_⟩
    rw [hr1]
    simp only [Bool.and_eq_true, decide_eq_true_eq]
    exact ⟨hstartle, le_refl _⟩
  rw [filter_time_period, hne2]
  simp only [Bool.false_eq_true, if_false]
  have hresne : ¬ (rows.filter (fun r =>
      (if timePeriod = "Last 6 Months" then subMonths 6 (dmaxRows rows)
        else if timePeriod = "Last 12 Months" then subMonths 12 (dmaxRows rows)
        else if timePeriod = "Last 24 Months" then subMonths 24 (dmaxRows rows)
        else dminRows rows).key ≤ r.1.key && r.1.key ≤ (dmaxRows rows).key)).isEmpty := by
    rw [List.isEmpty_iff]
    intro hempty
    have := hlatest rE hrE hrE1
    rw [hempty] at this
    exact absurd this (List.not_mem_nil rE)
  rw [if_pos (by simpa using hresne)]
  by_cases hmax : dmaxRows (rows.filter (fun r =>
      (if timePeriod = "Last 6 Months" then subMonths 6 (dmaxRows rows)
        else if timePeriod = "Last 12 Months" then subMonths 12 (dmaxRows rows)
        else if timePeriod = "Last 24 Months" then subMonths 24 (dmaxRows rows)
        else dminRows rows).key ≤ r.1.key && r.1.key ≤ (dmaxRows rows).key)) ≠ dmaxRows rows
  · rw [if_pos hmax]
    constructor
    · intro r hr
      rcases List.mem_append.mp (List.mem_dedup.mp hr) with h | h
      · exact List.mem_filter.mp h |>.1
      · exact List.mem_filter.mp h |>.1
    · intro r hr hr1
      apply List.mem_dedup.mpr
      exact List.mem_append.mpr (Or.inl (hlatest r hr hr1))
  · rw [if_neg hmax]
    constructor
    · intro r hr
      exact List.mem_filter.mp hr |>.1
    · intro r hr hr1
      exact hlatest r hr hr1

/-- Witness for `filter_time_period_keeps_latest`: on a concrete two-row
frame, the later row survives a 6-month filter. -/
theorem filter_time_period_keeps_latest_witness :
    ((⟨2025, 6, 1⟩ : Ymd), (5 : ℚ)) ∈
      filter_time_period [(⟨2023, 1, 1⟩, 3), (⟨2025, 6, 1⟩, 5)] "Last 6 Months" := by
  have h := filter_time_period_keeps_latest [(⟨2023, 1, 1⟩, 3), (⟨2025, 6, 1⟩, 5)]
    "Last 6 Months" (by decide) (by decide)
  exact h.2 (⟨2025, 6, 1⟩, 5) (by decide) (by decide)

/-! ## C6: the correlation matrix -/

/-- The `groupby('YearMonth').last()` fold picks exactly the claim's "last
observation of that month". -/
theorem specLastObs_eq_lastInMonth (rows : List (Nat × ℚ)) (k : Nat)
    (hk : k ∈ rows.map Prod.fst) : specLastObs rows k = some (lastInMonth rows k) := by
  induction rows using List.reverseRecOn with
  | nil => simp at hk
  | append_singleton rs r ih =>
    rw [specLastObs, lastInMonth, List.reverse_append, List.foldl_append]
    simp only [List.reverse_cons, List.reverse_nil, List.nil_append, List.singleton_append,
      List.foldl_cons, List.foldl_nil]
    by_cases hr : r.1 = k
    · rw [List.find?_cons_of_pos _ (by simpa using hr), if_pos hr]
      rfl
    · have hk2 : k ∈ rs.map Prod.fst := by
        rw [List.map_append] at hk
        rcases List.mem_append.mp hk with h | h
        · exact h
        · simp only [List.map_cons, List.map_nil, List.mem_singleton] at h
          exact absurd h.symm hr
      rw [List.find?_cons_of_neg _ (by simpa using hr), if_neg hr]
      have := ih hk2
      rw [specLastObs] at this
      rw [this, lastInMonth]

/-- Keys of the sorted month index all occur in the series. -/
theorem mem_monthKeysSorted (rows : List (Nat × ℚ)) (k : Nat)
    (hk : k ∈ monthKeysSorted rows) : k ∈ rows.map Prod.fst := by
  rw [monthKeysSorted] at hk
  exact List.mem_dedup.mp (List.mem_mergeSort.mp hk)

/-- The claim's pivot (last observation per month, read from the end)
coincides with the source's `groupby`/`last` pivot. -/
theorem specPivot_eq_pivotMonthly (rows : List (Nat × ℚ)) :
    specPivot rows = pivotMonthly rows := by
  rw [specPivot, pivotMonthly]
  have hgen : ∀ ks : List Nat, (∀ k ∈ ks, k ∈ rows.map Prod.fst) →
      ks.filterMap (fun k => (specLastObs rows k).map (fun v => (k, v)))
        = ks.map (fun k => (k, lastInMonth rows k)) := by
    intro ks hks
    induction ks with
    | nil => rfl
    | cons k rest ih =>
      rw [List.filterMap_cons, specLastObs_eq_lastInMonth rows k (hks k (List.mem_cons_self k rest))]
      simp only [Option.map_some']
      rw [ih (fun q hq => hks q (List.mem_cons_of_mem k hq))]
      rfl
  exact hgen _ (fun k hk => mem_monthKeysSorted rows k hk)

/-- C6: `create_correlation_matrix` pivots each usable indicator series to a
monthly index taking the last observation of each month, aligns all
indicators on the common (union) monthly index, and fills every ordered pair
with the Pearson-correlation data of the two aligned columns (the
coefficient `S_xy / sqrt(S_xx*S_yy)` is a fixed function of the recorded
triple); with fewer than 2 indicators, or fewer than 2 usable series, it
returns the empty frame (`none`). -/
theorem correlation_matrix_spec (inds : List (String × Option (List (Ymd × ℚ)))) :
    create_correlation_matrix inds = spec_correlation_matrix inds
    ∧ (inds.length < 2 → create_correlation_matrix inds = none)
    ∧ ((usableSeries inds).length < 2 → create_correlation_matrix inds = none) := by
  refine ⟨?_, ?_, ?_⟩
  · simp only [create_correlation_matrix, spec_correlation_matrix, specPivot_eq_pivotMonthly]
  · intro h
    rw [create_correlation_matrix, if_pos h]
  · intro h
    rw [create_correlation_matrix]
    by_cases h1 : inds.length < 2
    · rw [if_pos h1]
    · rw [if_neg h1]
      dsimp only
      rw [if_pos (by simpa [List.length_map] using h)]

/-- Witness for `correlation_matrix_spec`: a single indicator yields the
empty frame, and the matrix equation holds on a concrete pair. -/
theorem correlation_matrix_spec_witness :
    create_correlation_matrix [("a", some [((⟨2024, 1, 1⟩ : Ymd), (1 : ℚ))])] = none
    ∧ create_correlation_matrix
        [("a", some [((⟨2024, 1, 1⟩ : Ymd), (1 : ℚ))]), ("b", none)]
      = spec_correlation_matrix
        [("a", some [((⟨2024, 1, 1⟩ : Ymd), (1 : ℚ))]), ("b", none)] :=
  ⟨(correlation_matrix_spec [("a", some [((⟨2024, 1, 1⟩ : Ymd), (1 : ℚ))])]).2.1 (by decide),
   (correlation_matrix_spec [("a", some [((⟨2024, 1, 1⟩ : Ymd), (1 : ℚ))]), ("b", none)]).1⟩

end IndicatorDashboard
